import Mathlib

/-!
Verification of the `airflow_aws_project` ETL core against its specification.

The development shallowly embeds the two components with decision logic:

* the cleaning stage `lambda_handler` of
  `src/lambda/lambda-python3.12/data_cleaning/countries.py`, and
* the completion watcher `main` of
  `src/lambda_functions/lambda-python3.12/data_cleaning/countries.py`.

Python values decoded from JSON are modelled by the inductive type `Json`
(JSON numbers as rationals; the textual rendering `pyRepr` of numbers and
containers is an ASCII approximation of Python's `str`, which no theorem
depends on beyond non-emptiness of bracketed renderings).  Python exceptions
are modelled as values of type `PyErr` propagated through `Except`.  String
case operations (`.strip`, `.title`) are modelled for ASCII characters.
-/

/-- A Python value obtained by `json.loads`. -/
inductive Json where
  | null : Json
  | bool (b : Bool) : Json
  | num (q : Rat) : Json
  | str (s : String) : Json
  | arr (xs : List Json) : Json
  | obj (kvs : List (String × Json)) : Json

/-- The Python exception kinds that the embedded code can raise. -/
inductive PyErr where
  | typeError : PyErr
  | attributeError : PyErr
  | keyError : PyErr
  | indexError : PyErr
  | noSuchKey : PyErr
  | decodeError : PyErr
  | writeError : PyErr
deriving DecidableEq, Repr

/-- `dict.get`-style lookup in a decoded JSON object.  JSON objects produced
by `json.loads` have unique keys (later duplicates overwrite earlier ones in
a Python dict), so first-match lookup is adequate. -/
def dictGet (kvs : List (String × Json)) (k : String) : Option Json :=
  match kvs.find? (fun kv => kv.1 == k) with
  | some kv => some kv.2
  | none => none

/-- Python truthiness of a decoded JSON value. -/
def pyTruthy : Json → Bool
  | Json.null => false
  | Json.bool b => b
  | Json.num q => q != 0
  | Json.str s => !s.isEmpty
  | Json.arr xs => !xs.isEmpty
  | Json.obj kvs => !kvs.isEmpty

/-- Decimal-style rendering of a rational (`str` of a Python number,
abstracted: integers render exactly, non-integers as `num/den`). -/
def ratRepr (q : Rat) : String :=
  if q.den = 1 then toString q.num else toString q.num ++ "/" ++ toString q.den

mutual

/-- Python `repr` of a decoded JSON value (ASCII approximation). -/
def pyRepr : Json → String
  | Json.null => "None"
  | Json.bool true => "True"
  | Json.bool false => "False"
  | Json.num q => ratRepr q
  | Json.str s => "\x27" ++ s ++ "\x27"
  | Json.arr xs => "[" ++ pyReprList xs ++ "]"
  | Json.obj kvs => "\x7b" ++ pyReprObj kvs ++ "\x7d"

/-- Comma-separated `repr` of list elements. -/
def pyReprList : List Json → String
  | [] => ""
  | [x] => pyRepr x
  | x :: y :: rest => pyRepr x ++ ", " ++ pyReprList (y :: rest)

/-- Comma-separated `repr` of dict items. -/
def pyReprObj : List (String × Json) → String
  | [] => ""
  | [kv] => "\x27" ++ kv.1 ++ "\x27: " ++ pyRepr kv.2
  | kv :: kv2 :: rest => "\x27" ++ kv.1 ++ "\x27: " ++ pyRepr kv.2 ++ ", " ++ pyReprObj (kv2 :: rest)

end

/-- Python `str` of a decoded JSON value: the string itself for strings,
`repr`-style rendering otherwise. -/
def pyStr (v : Json) : String :=
  match v with
  | Json.str s => s
  | other => pyRepr other

/-- Python `v > 0` on a decoded JSON value: numbers and booleans compare,
everything else raises `TypeError`. -/
def pyGtZero : Json → Except PyErr Bool
  | Json.num q => Except.ok (decide (0 < q))
  | Json.bool b => Except.ok b
  | _ => Except.error PyErr.typeError

/-- Python `v[0]`: lists index, strings yield their first character as a
one-character string, dicts raise `KeyError` (JSON keys are strings, not
`0`), everything else raises `TypeError`. -/
def pySubscript0 : Json → Except PyErr Json
  | Json.arr [] => Except.error PyErr.indexError
  | Json.arr (x :: _) => Except.ok x
  | Json.str s =>
    match s.data with
    | [] => Except.error PyErr.indexError
    | c :: _ => Except.ok (Json.str (String.mk [c]))
  | Json.obj _ => Except.error PyErr.keyError
  | _ => Except.error PyErr.typeError

/-- Python `len(v)`: defined for strings, lists and dicts, `TypeError`
otherwise. -/
def pyLen : Json → Except PyErr Nat
  | Json.str s => Except.ok s.length
  | Json.arr xs => Except.ok xs.length
  | Json.obj kvs => Except.ok kvs.length
  | _ => Except.error PyErr.typeError

/-- Python iteration over a decoded JSON value: lists yield elements,
strings yield one-character strings, dicts yield their keys, everything
else raises `TypeError`. -/
def pyIter : Json → Except PyErr (List Json)
  | Json.str s => Except.ok (s.data.map (fun c => Json.str (String.mk [c])))
  | Json.arr xs => Except.ok xs
  | Json.obj kvs => Except.ok (kvs.map (fun kv => Json.str kv.1))
  | _ => Except.error PyErr.typeError

/-- The whitespace characters stripped by Python `str.strip` (ASCII part). -/
def isPySpace (c : Char) : Bool :=
  c == ' ' || c == '\t' || c == '\n' || c == '\x0d' || c == '\x0b' || c == '\x0c'

/-- Python `str.strip` on the character list. -/
def pyStripL (l : List Char) : List Char :=
  ((l.dropWhile isPySpace).reverse.dropWhile isPySpace).reverse

/-- Python `str.strip` (ASCII whitespace model). -/
def pyStrip (s : String) : String :=
  String.mk (pyStripL s.data)

/-- Python `str.title` on a character list: the flag records whether the
previous character was alphabetic. -/
def pyTitleL : List Char → Bool → List Char
  | [], _ => []
  | c :: rest, prevAlpha =>
    if c.isAlpha then
      (if prevAlpha then c.toLower else c.toUpper) :: pyTitleL rest true
    else
      c :: pyTitleL rest false

/-- Python `str.title` (ASCII model). -/
def pyTitle (s : String) : String :=
  String.mk (pyTitleL s.data false)

/-- A materialized cleaned record, as built by the dict literal in the
cleaning loop of `lambda_handler` (`countries.py` lines 65-71). -/
structure CleanedRecord where
  country : String
  capital : Json
  population : Json
  area : Json
  region : String

/-- Outcome of processing one raw record in the cleaning loop: a cleaned
record, a skip through the validity filter (`else: skipped += 1`), or a skip
through the per-record `except` clause. -/
inductive NormResult where
  | cleaned (r : CleanedRecord) : NormResult
  | filterSkip : NormResult
  | errorSkip (e : PyErr) : NormResult

/-- Name extraction of the cleaning loop (lines 47-51):
`country.get('name', {})`, then `.get('common', '').strip().title()` for a
dict or `str(...).strip().title()` otherwise.  Calling `.strip()` on a
non-string `common` value raises `AttributeError`. -/
def extractName (kvs : List (String × Json)) : Except PyErr String :=
  match (dictGet kvs "name").getD (Json.obj []) with
  | Json.obj nkvs =>
    match (dictGet nkvs "common").getD (Json.str "") with
    | Json.str s => Except.ok (pyTitle (pyStrip s))
    | _ => Except.error PyErr.attributeError
  | other => Except.ok (pyTitle (pyStrip (pyStr other)))

/-- Region extraction (line 54): `country.get('region', 'Unknown').strip().title()`;
a non-string region raises `AttributeError`. -/
def extractRegion (kvs : List (String × Json)) : Except PyErr String :=
  match (dictGet kvs "region").getD (Json.str "Unknown") with
  | Json.str s => Except.ok (pyTitle (pyStrip s))
  | _ => Except.error PyErr.attributeError

/-- Capital extraction (lines 60-61): `capital_list = country.get('capital', [])`;
`capital_list[0] if capital_list else 'N/A'`. -/
def extractCapital (kvs : List (String × Json)) : Except PyErr Json :=
  let capitalList := (dictGet kvs "capital").getD (Json.arr [])
  if pyTruthy capitalList then pySubscript0 capitalList else Except.ok (Json.str "N/A")

/-- The body of the per-record `try` block (lines 45-73), with Python
exceptions surfaced in `Except`.  `Except.ok (some r)` materializes `r`,
`Except.ok none` is the `else: skipped += 1` branch.  Effects occur in
source order: name, region, capital, then the `if name and population > 0`
guard (short-circuit: the population comparison is only evaluated when the
name is truthy). -/
def normalizeRecordE (country : Json) : Except PyErr (Option CleanedRecord) :=
  match country with
  | Json.obj kvs =>
    match extractName kvs with
    | Except.error e => Except.error e
    | Except.ok name =>
      match extractRegion kvs with
      | Except.error e => Except.error e
      | Except.ok region =>
        match extractCapital kvs with
        | Except.error e => Except.error e
        | Except.ok capital =>
          let population := (dictGet kvs "population").getD (Json.num 0)
          let area := (dictGet kvs "area").getD (Json.num 0)
          if name = "" then Except.ok none
          else
            match pyGtZero population with
            | Except.error e => Except.error e
            | Except.ok false => Except.ok none
            | Except.ok true =>
              Except.ok (some { country := name,
                                capital := capital,
                                population := population,
                                area := if pyTruthy area then area else Json.str "N/A",
                                region := region })
  | _ => Except.error PyErr.attributeError

/-- Processing of one raw record including the per-record `except Exception`
clause (lines 75-77): an exception is converted into a skip. -/
def normalizeRecord (c : Json) : NormResult :=
  match normalizeRecordE c with
  | Except.ok (some r) => NormResult.cleaned r
  | Except.ok none => NormResult.filterSkip
  | Except.error e => NormResult.errorSkip e

/-- The cleaned record produced by a raw record, if any. -/
def cleanedOf (c : Json) : Option CleanedRecord :=
  match normalizeRecord c with
  | NormResult.cleaned r => some r
  | _ => none

/-- One iteration of the cleaning loop acting on the accumulator
`(cleaned_data, skipped)`. -/
def cleanStep (acc : List CleanedRecord × Nat) (c : Json) : List CleanedRecord × Nat :=
  match normalizeRecord c with
  | NormResult.cleaned r => (acc.1 ++ [r], acc.2)
  | _ => (acc.1, acc.2 + 1)

/-- The cleaning loop (lines 44-77): fold over the raw records starting from
`cleaned_data = []`, `skipped = 0`. -/
def cleanBatch (records : List Json) : List CleanedRecord × Nat :=
  records.foldl cleanStep ([], 0)

/-- RFC-4180-style minimal quoting used by `csv.writer`: quote a field that
contains a separator, quote or line break, doubling embedded quotes. -/
def csvQuote (s : String) : String :=
  if s.data.any (fun c => c == ',' || c == '"' || c == '\n' || c == '\x0d') then
    "\"" ++ String.mk (s.data.flatMap (fun c => if c == '"' then ['"', '"'] else [c])) ++ "\""
  else s

/-- A CSV cell: the value rendered by `str` then minimally quoted. -/
def csvField (v : Json) : String :=
  csvQuote (pyStr v)

/-- One CSV data row in the fixed field order
`Country,Capital,Population,Area,Region` with CRLF terminator. -/
def csvRow (r : CleanedRecord) : String :=
  csvField (Json.str r.country) ++ "," ++ csvField r.capital ++ "," ++
    csvField r.population ++ "," ++ csvField r.area ++ "," ++
    csvField (Json.str r.region) ++ "\x0d\n"

/-- The serialized CSV payload (lines 82-86): header row then one row per
cleaned record. -/
def csvRender (rows : List CleanedRecord) : String :=
  "Country,Capital,Population,Area,Region\x0d\n" ++ String.join (rows.map csvRow)

/-- `os.path.basename` on a character list: the suffix after the last `/`. -/
def basenameL (l : List Char) : List Char :=
  (l.reverse.takeWhile (fun c => c != '/')).reverse

/-- The root part of `os.path.splitext` on a slash-free name: drop the part
from the last dot on, unless every character before that dot is itself a
dot (then there is no extension). -/
def splitextRoot (l : List Char) : List Char :=
  let afterRev := l.reverse.takeWhile (fun c => c != '.')
  if afterRev.length = l.length then l
  else
    let root := (l.reverse.drop (afterRev.length + 1)).reverse
    if root.all (fun c => c == '.') then l else root

/-- Destination-key derivation (line 29):
`f"cleaned/{os.path.splitext(os.path.basename(source_key))[0]}.csv"`. -/
def derive_key (sourceKey : String) : String :=
  "cleaned/" ++ String.mk (splitextRoot (basenameL sourceKey.data)) ++ ".csv"

/-- Value of a hexadecimal digit character. -/
def hexVal (c : Char) : Option Nat :=
  if '0' ≤ c ∧ c ≤ '9' then some (c.toNat - '0'.toNat)
  else if 'a' ≤ c ∧ c ≤ 'f' then some (c.toNat - 'a'.toNat + 10)
  else if 'A' ≤ c ∧ c ≤ 'F' then some (c.toNat - 'A'.toNat + 10)
  else none

/-- `urllib.parse.unquote_plus` on a character list: `+` becomes a space,
`%xy` with two hex digits becomes the character with that code (per-byte
model, faithful for ASCII), anything else is kept as-is. -/
def unquotePlusL : List Char → List Char
  | [] => []
  | '+' :: rest => ' ' :: unquotePlusL rest
  | '%' :: c1 :: c2 :: rest =>
    match hexVal c1, hexVal c2 with
    | some h1, some h2 => Char.ofNat (16 * h1 + h2) :: unquotePlusL rest
    | _, _ => '%' :: unquotePlusL (c1 :: c2 :: rest)
  | c :: rest => c :: unquotePlusL rest

/-- `urllib.parse.unquote_plus` (line 26). -/
def unquote_plus (s : String) : String :=
  String.mk (unquotePlusL s.data)

/-- Python `v[k]` for a string key `k`: dict lookup (`KeyError` when the key
is missing), `TypeError` on any non-dict (string/list indices must be
integers). -/
def pyGetItemStr (v : Json) (k : String) : Except PyErr Json :=
  match v with
  | Json.obj kvs =>
    match dictGet kvs k with
    | some w => Except.ok w
    | none => Except.error PyErr.keyError
  | _ => Except.error PyErr.typeError

/-- The structured response returned by `lambda_handler`; `body` is the
value passed to `json.dumps`. -/
structure HandlerResponse where
  statusCode : Nat
  body : Json

/-- The success body (lines 100-106). -/
def successBody (sb sk db dk : String) (processed skipped : Nat) : Json :=
  Json.obj [("message", Json.str "File cleaned and converted to CSV"),
    ("source", Json.str ("s3://" ++ sb ++ "/" ++ sk)),
    ("destination", Json.str ("s3://" ++ db ++ "/" ++ dk)),
    ("records_processed", Json.num (processed : Rat)),
    ("records_skipped", Json.num (skipped : Rat))]

/-- Rendering of a caught exception into the error body string. -/
def errMsg : PyErr → String
  | PyErr.typeError => "TypeError"
  | PyErr.attributeError => "AttributeError"
  | PyErr.keyError => "KeyError"
  | PyErr.indexError => "IndexError"
  | PyErr.noSuchKey => "NoSuchKey"
  | PyErr.decodeError => "JSONDecodeError"
  | PyErr.writeError => "WriteError"

/-- The body of the outer `try` block of `lambda_handler` (lines 19-107).
External collaborators are passed as data: `env` models `os.environ`
(`KeyError` on a missing variable), `getObject` models
`s3.get_object(...)['Body'].read().decode('utf-8')` followed by
`json.loads` (its errors cover `NoSuchKey` and decode failures), and
`putOutcome` models `s3.put_object`.  The returned list records the
successful destination writes as `(bucket, key, body)` triples. -/
def handlerCore (env : String → Option String) (event : Json)
    (getObject : String → String → Except PyErr Json)
    (putOutcome : Except PyErr Unit) :
    Except PyErr (HandlerResponse × List (String × String × String)) :=
  match env "SOURCE_BUCKET" with
  | none => Except.error PyErr.keyError
  | some sourceBucket =>
  match env "DESTINATION_BUCKET" with
  | none => Except.error PyErr.keyError
  | some destBucket =>
  match pyGetItemStr event "Records" with
  | Except.error e => Except.error e
  | Except.ok records =>
  match pySubscript0 records with
  | Except.error e => Except.error e
  | Except.ok record =>
  match pyGetItemStr record "s3" with
  | Except.error e => Except.error e
  | Except.ok s3v =>
  match pyGetItemStr s3v "object" with
  | Except.error e => Except.error e
  | Except.ok objv =>
  match pyGetItemStr objv "key" with
  | Except.error e => Except.error e
  | Except.ok keyv =>
  match keyv with
  | Json.str rawKey =>
    let sourceKey := unquote_plus rawKey
    let destKey := derive_key sourceKey
    match getObject sourceBucket sourceKey with
    | Except.error e => Except.error e
    | Except.ok rawData =>
    match pyLen rawData with
    | Except.error e => Except.error e
    | Except.ok _n =>
    match pyIter rawData with
    | Except.error e => Except.error e
    | Except.ok items =>
      let res := cleanBatch items
      let csv := csvRender res.1
      match putOutcome with
      | Except.error e => Except.error e
      | Except.ok _ =>
        Except.ok ({ statusCode := 200,
                     body := successBody sourceBucket sourceKey destBucket destKey res.1.length res.2 },
          [(destBucket, destKey, csv)])
  | _ => Except.error PyErr.typeError

/-- `lambda_handler` with its outer `except Exception` clause (lines
109-114): any escaped exception becomes a 500 response, and no destination
write has then happened. -/
def lambda_handler (env : String → Option String) (event : Json)
    (getObject : String → String → Except PyErr Json)
    (putOutcome : Except PyErr Unit) :
    HandlerResponse × List (String × String × String) :=
  match handlerCore env event getObject putOutcome with
  | Except.ok r => r
  | Except.error e => ({ statusCode := 500, body := Json.str ("Error: " ++ errMsg e) }, [])

/-- A concrete environment carrying both required variables. -/
def goodEnv : String → Option String := fun k =>
  if k = "SOURCE_BUCKET" then some "src-bucket"
  else if k = "DESTINATION_BUCKET" then some "dst-bucket"
  else none

/-- A concrete S3 trigger event for key `raw/countries_data.json`. -/
def goodEvent : Json :=
  Json.obj [("Records", Json.arr [Json.obj [("s3", Json.obj [("object",
    Json.obj [("key", Json.str "raw/countries_data.json")])])]])]

/-- Outcome of one `head_object` poll by the completion watcher: success,
the `NoSuchKey` exception, or any other storage error. -/
inductive HeadResult where
  | found : HeadResult
  | notFound : HeadResult
  | err : HeadResult
deriving DecidableEq

/-- Terminal state of the completion watcher: the file was found at a given
elapsed time, the loop timed out (`TimeoutError`), or a storage error other
than `NoSuchKey` propagated at a given elapsed time. -/
inductive WatchResult where
  | completed (elapsed : Nat) : WatchResult
  | timedOut (elapsed maxWait : Nat) : WatchResult
  | fatal (elapsed : Nat) : WatchResult
deriving DecidableEq

/-- The polling loop of the watcher `main` (`lambda_functions/.../countries.py`
lines 36-51): `while elapsed_time < max_wait_time`, head the destination
key, return on success, sleep `check_interval` and add it to `elapsed_time`
on `NoSuchKey`, propagate any other error.  `head` gives the poll outcome
as a function of the elapsed time at which the poll is issued.  The second
`Nat` of the result counts the polls performed.  Recursion is bounded by a
fuel argument; the wrapper `await_completion` passes `maxWait + 1`, which
is sufficient fuel for every positive `interval`, so the fuel-exhausted
branch coincides with the loop exit. -/
def watchLoop (head : Nat → HeadResult) (maxWait interval : Nat) :
    Nat → Nat → WatchResult × Nat
  | elapsed, 0 => (WatchResult.timedOut elapsed maxWait, 0)
  | elapsed, fuel + 1 =>
    if elapsed < maxWait then
      match head elapsed with
      | HeadResult.found => (WatchResult.completed elapsed, 1)
      | HeadResult.err => (WatchResult.fatal elapsed, 1)
      | HeadResult.notFound =>
        let r := watchLoop head maxWait interval (elapsed + interval) fuel
        (r.1, r.2 + 1)
    else (WatchResult.timedOut elapsed maxWait, 0)

/-- The watcher `main` with its constants abstracted: poll until the object
appears or `elapsed_time` reaches `maxWait`, in increments of `interval`
(the source fixes `maxWait = 300`, `interval = 10`). -/
def await_completion (head : Nat → HeadResult) (maxWait interval : Nat) :
    WatchResult × Nat :=
  watchLoop head maxWait interval 0 (maxWait + 1)

/-- Whether a decoded JSON value is a Python number for the purposes of a
comparison with `0` (booleans are numeric in Python). -/
def isPyNumber : Json → Bool
  | Json.num _ => true
  | Json.bool _ => true
  | _ => false

/-- The raw (pre-`strip`/`title`) name string that the cleaning loop reads
from a record's fields: the `common` sub-field of a `name` mapping (when it
is a string), or the `str` coercion of a non-mapping `name` value.  `none`
when the `common` sub-field is present but not a string (the extraction
then raises `AttributeError`). -/
def rawNameOf (kvs : List (String × Json)) : Option String :=
  match (dictGet kvs "name").getD (Json.obj []) with
  | Json.obj nkvs =>
    match (dictGet nkvs "common").getD (Json.str "") with
    | Json.str s => some s
    | _ => none
  | other => some (pyStr other)

/-- The raw (pre-`strip`/`title`) region string, defaulting to `"Unknown"`
when the field is absent; `none` when the field holds a non-string. -/
def rawRegionOf (kvs : List (String × Json)) : Option String :=
  match (dictGet kvs "region").getD (Json.str "Unknown") with
  | Json.str s => some s
  | _ => none

/-! ### Helper lemmas about the cleaning loop -/

theorem cleanFoldl_eq (rs : List Json) :
    ∀ acc : List CleanedRecord × Nat,
      rs.foldl cleanStep acc =
        (acc.1 ++ rs.filterMap cleanedOf,
         acc.2 + rs.countP (fun r => (cleanedOf r).isNone)) := by
  induction rs with
  | nil => intro acc; simp
  | cons r rs ih =>
    intro acc
    rw [List.foldl_cons, ih]
    cases h : normalizeRecord r <;>
      simp [cleanStep, cleanedOf, h, List.filterMap_cons, List.countP_cons] <;>
      omega

theorem cleanBatch_eq (rs : List Json) :
    cleanBatch rs =
      (rs.filterMap cleanedOf, rs.countP (fun r => (cleanedOf r).isNone)) := by
  unfold cleanBatch
  rw [cleanFoldl_eq]
  simp

theorem filterMap_length_add_countP (rs : List Json) :
    (rs.filterMap cleanedOf).length +
      rs.countP (fun r => (cleanedOf r).isNone) = rs.length := by
  induction rs with
  | nil => simp
  | cons r rs ih =>
    cases h : cleanedOf r <;>
      simp [List.filterMap_cons, List.countP_cons, h] <;> omega

/-- C1: for every input sequence, the number of cleaned records plus the
number of skipped records equals the input length; and the cleaning loop is
pointwise (each record contributes independently of the others, so no
record stops processing of subsequent records). -/
theorem cleaning_counts_partition (rs : List Json) :
    (cleanBatch rs).1.length + (cleanBatch rs).2 = rs.length ∧
    cleanBatch rs =
      (rs.filterMap cleanedOf, rs.countP (fun r => (cleanedOf r).isNone)) := by
  refine ⟨?_, cleanBatch_eq rs⟩
  rw [cleanBatch_eq]
  exact filterMap_length_add_countP rs

theorem normalizeRecordE_ok_some (kvs : List (String × Json)) (r : CleanedRecord)
    (h : normalizeRecordE (Json.obj kvs) = Except.ok (some r)) :
    ∃ name region capital,
      extractName kvs = Except.ok name ∧ name ≠ "" ∧
      extractRegion kvs = Except.ok region ∧
      extractCapital kvs = Except.ok capital ∧
      pyGtZero ((dictGet kvs "population").getD (Json.num 0)) = Except.ok true ∧
      r = { country := name, capital := capital,
            population := (dictGet kvs "population").getD (Json.num 0),
            area := if pyTruthy ((dictGet kvs "area").getD (Json.num 0))
                    then (dictGet kvs "area").getD (Json.num 0) else Json.str "N/A",
            region := region } := by
  unfold normalizeRecordE at h
  dsimp only [] at h
  split at h
  · exact Except.noConfusion h
  rename_i name hname
  split at h
  · exact Except.noConfusion h
  rename_i region hregion
  split at h
  · exact Except.noConfusion h
  rename_i capital hcapital
  split at h
  · simp at h
  rename_i hne
  split at h
  · exact Except.noConfusion h
  · simp at h
  rename_i hpop
  simp only [Except.ok.injEq, Option.some.injEq] at h
  exact ⟨name, region, capital, hname, hne, hregion, hcapital, hpop, h.symm⟩

theorem normalizeRecord_cleaned_iff (c : Json) (r : CleanedRecord) :
    normalizeRecord c = NormResult.cleaned r ↔
      normalizeRecordE c = Except.ok (some r) := by
  cases hE : normalizeRecordE c with
  | ok o => cases o <;> simp [normalizeRecord, hE]
  | error e => simp [normalizeRecord, hE]

/-- C2: a cleaned record is materialized only when its extracted name is
non-empty and its population passes the `> 0` comparison; every record in
the cleaned output satisfies both; a record whose name extraction yields
the empty string, or whose population compares `<= 0`, is never
materialized. -/
theorem cleaned_record_validity :
    (∀ c r, normalizeRecord c = NormResult.cleaned r →
      r.country ≠ "" ∧ pyGtZero r.population = Except.ok true) ∧
    (∀ rs r, r ∈ (cleanBatch rs).1 →
      r.country ≠ "" ∧ pyGtZero r.population = Except.ok true) ∧
    (∀ kvs, extractName kvs = Except.ok "" →
      ∀ r, normalizeRecord (Json.obj kvs) ≠ NormResult.cleaned r) ∧
    (∀ kvs, pyGtZero ((dictGet kvs "population").getD (Json.num 0)) = Except.ok false →
      ∀ r, normalizeRecord (Json.obj kvs) ≠ NormResult.cleaned r) := by
  have main : ∀ c r, normalizeRecord c = NormResult.cleaned r →
      r.country ≠ "" ∧ pyGtZero r.population = Except.ok true := by
    intro c r h
    rw [normalizeRecord_cleaned_iff] at h
    cases c with
    | obj kvs =>
      obtain ⟨name, region, capital, _, hne, _, _, hpop, hr⟩ :=
        normalizeRecordE_ok_some kvs r h
      subst hr
      exact ⟨hne, hpop⟩
    | null => simp [normalizeRecordE] at h
    | bool b => simp [normalizeRecordE] at h
    | num q => simp [normalizeRecordE] at h
    | str s => simp [normalizeRecordE] at h
    | arr xs => simp [normalizeRecordE] at h
  refine ⟨main, ?_, ?_, ?_⟩
  · intro rs r hmem
    rw [cleanBatch_eq] at hmem
    obtain ⟨c, _, hc⟩ := List.mem_filterMap.mp hmem
    unfold cleanedOf at hc
    split at hc
    · rename_i r2 hr2
      cases hc
      exact main c r hr2
    · exact Option.noConfusion hc
  · intro kvs hempty r hcl
    rw [normalizeRecord_cleaned_iff] at hcl
    obtain ⟨name, _, _, hname, hne, _⟩ := normalizeRecordE_ok_some kvs r hcl
    rw [hempty] at hname
    exact hne (Except.ok.inj hname).symm
  · intro kvs hfalse r hcl
    rw [normalizeRecord_cleaned_iff] at hcl
    obtain ⟨name, region, capital, _, _, _, _, hpop, _⟩ :=
      normalizeRecordE_ok_some kvs r hcl
    rw [hfalse] at hpop
    exact Bool.noConfusion (Except.ok.inj hpop)

/-- Witness for C2 at the concrete Wakanda record of the spec round-trip. -/
theorem cleaned_record_validity_witness :
    pyGtZero ({ country := "Wakanda", capital := Json.str "N/A",
                population := Json.num 1000, area := Json.str "N/A",
                region := "Africa" } : CleanedRecord).population = Except.ok true :=
  (cleaned_record_validity.1
    (Json.obj [("name", Json.obj [("common", Json.str "Wakanda")]),
      ("population", Json.num 1000), ("region", Json.str "africa")])
    { country := "Wakanda", capital := Json.str "N/A", population := Json.num 1000,
      area := Json.str "N/A", region := "Africa" } rfl).2

theorem extractName_raw (kvs : List (String × Json)) (n : String)
    (h : extractName kvs = Except.ok n) :
    ∃ s, rawNameOf kvs = some s ∧ n = pyTitle (pyStrip s) := by
  unfold extractName at h
  cases hv : (dictGet kvs "name").getD (Json.obj []) with
  | obj nkvs =>
    simp only [hv] at h
    cases hw : (dictGet nkvs "common").getD (Json.str "") with
    | str s =>
      simp only [hw] at h
      exact ⟨s, by simp [rawNameOf, hv, hw], (Except.ok.inj h).symm⟩
    | null => simp only [hw] at h; exact Except.noConfusion h
    | bool b => simp only [hw] at h; exact Except.noConfusion h
    | num q => simp only [hw] at h; exact Except.noConfusion h
    | arr xs => simp only [hw] at h; exact Except.noConfusion h
    | obj kvs2 => simp only [hw] at h; exact Except.noConfusion h
  | null =>
    simp only [hv] at h
    exact ⟨pyStr Json.null, by simp [rawNameOf, hv], (Except.ok.inj h).symm⟩
  | bool b =>
    simp only [hv] at h
    exact ⟨pyStr (Json.bool b), by simp [rawNameOf, hv], (Except.ok.inj h).symm⟩
  | num q =>
    simp only [hv] at h
    exact ⟨pyStr (Json.num q), by simp [rawNameOf, hv], (Except.ok.inj h).symm⟩
  | str s =>
    simp only [hv] at h
    exact ⟨pyStr (Json.str s), by simp [rawNameOf, hv], (Except.ok.inj h).symm⟩
  | arr xs =>
    simp only [hv] at h
    exact ⟨pyStr (Json.arr xs), by simp [rawNameOf, hv], (Except.ok.inj h).symm⟩

theorem extractRegion_raw (kvs : List (String × Json)) (n : String)
    (h : extractRegion kvs = Except.ok n) :
    ∃ s, rawRegionOf kvs = some s ∧ n = pyTitle (pyStrip s) := by
  unfold extractRegion at h
  cases hv : (dictGet kvs "region").getD (Json.str "Unknown") with
  | str s =>
    simp only [hv] at h
    exact ⟨s, by simp [rawRegionOf, hv], (Except.ok.inj h).symm⟩
  | null => simp only [hv] at h; exact Except.noConfusion h
  | bool b => simp only [hv] at h; exact Except.noConfusion h
  | num q => simp only [hv] at h; exact Except.noConfusion h
  | arr xs => simp only [hv] at h; exact Except.noConfusion h
  | obj kvs2 => simp only [hv] at h; exact Except.noConfusion h

/-- C4: in every materialized record, Country and Region are the
`strip`-then-`title` images of the raw values (Region defaulting to
"Unknown" when absent); Area is the sentinel "N/A" exactly when the raw
numeric area is absent or zero and is the raw numeric value unchanged
otherwise; Capital is the sentinel "N/A" exactly when the raw capital
sequence is absent or empty and is its first element otherwise. -/
theorem cleaned_field_rules (kvs : List (String × Json)) (r : CleanedRecord)
    (h : normalizeRecord (Json.obj kvs) = NormResult.cleaned r) :
    (∃ s, rawNameOf kvs = some s ∧ r.country = pyTitle (pyStrip s)) ∧
    (∃ s, rawRegionOf kvs = some s ∧ r.region = pyTitle (pyStrip s)) ∧
    (dictGet kvs "region" = none → r.region = "Unknown") ∧
    (dictGet kvs "area" = none → r.area = Json.str "N/A") ∧
    (∀ q, dictGet kvs "area" = some (Json.num q) →
      r.area = if q = 0 then Json.str "N/A" else Json.num q) ∧
    (dictGet kvs "capital" = none → r.capital = Json.str "N/A") ∧
    (∀ xs, dictGet kvs "capital" = some (Json.arr xs) →
      r.capital = (match xs with | [] => Json.str "N/A" | x :: _ => x)) := by
  rw [normalizeRecord_cleaned_iff] at h
  obtain ⟨name, region, capital, hname, hne, hregion, hcapital, hpop, hr⟩ :=
    normalizeRecordE_ok_some kvs r h
  subst hr
  refine ⟨?_, ?_, ?_, ?_, ?_, ?_, ?_⟩
  · obtain ⟨s, hs, heq⟩ := extractName_raw kvs name hname
    exact ⟨s, hs, heq⟩
  · obtain ⟨s, hs, heq⟩ := extractRegion_raw kvs region hregion
    exact ⟨s, hs, heq⟩
  · intro hd
    unfold extractRegion at hregion
    rw [hd] at hregion
    simp only [Option.getD_none] at hregion
    have h2 := (Except.ok.inj hregion)
    show region = "Unknown"
    rw [← h2]
    rfl
  · intro hd
    show (if pyTruthy ((dictGet kvs "area").getD (Json.num 0))
          then (dictGet kvs "area").getD (Json.num 0) else Json.str "N/A") = Json.str "N/A"
    rw [hd]
    rfl
  · intro q hd
    show (if pyTruthy ((dictGet kvs "area").getD (Json.num 0))
          then (dictGet kvs "area").getD (Json.num 0) else Json.str "N/A") =
      if q = 0 then Json.str "N/A" else Json.num q
    rw [hd]
    simp only [Option.getD_some, pyTruthy]
    by_cases hq : q = 0
    · subst hq; simp
    · simp [hq]
  · intro hd
    unfold extractCapital at hcapital
    rw [hd] at hcapital
    exact (Except.ok.inj hcapital).symm
  · intro xs hd
    unfold extractCapital at hcapital
    rw [hd] at hcapital
    cases xs with
    | nil => exact (Except.ok.inj hcapital).symm
    | cons x tl =>
      simp only [Option.getD_some] at hcapital
      have : pyTruthy (Json.arr (x :: tl)) = true := by simp [pyTruthy]
      rw [if_pos this] at hcapital
      exact (Except.ok.inj hcapital).symm

/-- Witness for C4 at a record with every optional field present. -/
theorem cleaned_field_rules_witness :
    (∃ s, rawNameOf [("name", Json.obj [("common", Json.str " new zealand ")]),
        ("population", Json.num 42), ("region", Json.str "oceania"),
        ("area", Json.num 268), ("capital", Json.arr [Json.str "Wellington"])] = some s ∧
      ("New Zealand" : String) = pyTitle (pyStrip s)) ∧
    (∃ s, rawRegionOf [("name", Json.obj [("common", Json.str " new zealand ")]),
        ("population", Json.num 42), ("region", Json.str "oceania"),
        ("area", Json.num 268), ("capital", Json.arr [Json.str "Wellington"])] = some s ∧
      ("Oceania" : String) = pyTitle (pyStrip s)) :=
  ⟨(cleaned_field_rules
      [("name", Json.obj [("common", Json.str " new zealand ")]),
       ("population", Json.num 42), ("region", Json.str "oceania"),
       ("area", Json.num 268), ("capital", Json.arr [Json.str "Wellington"])]
      { country := "New Zealand", capital := Json.str "Wellington",
        population := Json.num 42, area := Json.num 268, region := "Oceania" }
      rfl).1,
   (cleaned_field_rules
      [("name", Json.obj [("common", Json.str " new zealand ")]),
       ("population", Json.num 42), ("region", Json.str "oceania"),
       ("area", Json.num 268), ("capital", Json.arr [Json.str "Wellington"])]
      { country := "New Zealand", capital := Json.str "Wellington",
        population := Json.num 42, area := Json.num 268, region := "Oceania" }
      rfl).2.1⟩

/-- C8 counterexample: a record whose population is the string "abc" is not
treated as population 0 going through the validity filter; the comparison
`population > 0` raises `TypeError`, so the record takes the caught
per-record exception path. -/
theorem nonnumeric_population_error_path :
    normalizeRecord (Json.obj [("name", Json.obj [("common", Json.str "X")]),
      ("population", Json.str "abc")]) = NormResult.errorSkip PyErr.typeError :=
  rfl

/-- C8 amended: a record whose population is absent or non-numeric is never
materialized and never raises out of the batch — it is counted as exactly
one skip; an absent population defaults to 0 and is skipped through the
validity filter, while a non-numeric population raises a per-record
`TypeError` that is caught and counted as the same kind of skip. -/
theorem population_absent_or_nonnumeric_skipped :
    (∀ kvs, (dictGet kvs "population" = none ∨
        (∃ v, dictGet kvs "population" = some v ∧ isPyNumber v = false)) →
      (∀ r, normalizeRecord (Json.obj kvs) ≠ NormResult.cleaned r) ∧
      cleanBatch [Json.obj kvs] = ([], 1)) ∧
    normalizeRecord (Json.obj [("name", Json.obj [("common", Json.str "Ruritania")])]) =
      NormResult.filterSkip ∧
    normalizeRecord (Json.obj [("name", Json.obj [("common", Json.str "Ruritania")]),
      ("population", Json.null)]) = NormResult.errorSkip PyErr.typeError := by
  refine ⟨?_, rfl, rfl⟩
  intro kvs hyp
  have hnc : ∀ r, normalizeRecord (Json.obj kvs) ≠ NormResult.cleaned r := by
    intro r hcl
    rw [normalizeRecord_cleaned_iff] at hcl
    obtain ⟨name, region, capital, _, _, _, _, hpop, _⟩ :=
      normalizeRecordE_ok_some kvs r hcl
    cases hyp with
    | inl hd =>
      rw [hd] at hpop
      simp only [Option.getD_none] at hpop
      have hz : pyGtZero (Json.num 0) = Except.ok false := rfl
      rw [hz] at hpop
      exact Bool.noConfusion (Except.ok.inj hpop)
    | inr hd =>
      obtain ⟨v, hv, hnn⟩ := hd
      rw [hv] at hpop
      simp only [Option.getD_some] at hpop
      cases v <;> simp [pyGtZero, isPyNumber] at hpop hnn
  refine ⟨hnc, ?_⟩
  cases hn : normalizeRecord (Json.obj kvs) with
  | cleaned r => exact absurd hn (hnc r)
  | filterSkip => simp [cleanBatch, cleanStep, hn]
  | errorSkip e => simp [cleanBatch, cleanStep, hn]

/-- Witness for C8 (amended) at a record with no population field. -/
theorem population_absent_or_nonnumeric_skipped_witness :
    cleanBatch [Json.obj [("name", Json.obj [("common", Json.str "Atlantis")])]] = ([], 1) :=
  (population_absent_or_nonnumeric_skipped.1
    [("name", Json.obj [("common", Json.str "Atlantis")])] (Or.inl rfl)).2

theorem negArea_record_eval :
    normalizeRecord (Json.obj [("name", Json.obj [("common", Json.str "X")]),
      ("population", Json.num 5), ("area", Json.num (-5))]) =
    NormResult.cleaned { country := "X", capital := Json.str "N/A",
                         population := Json.num 5, area := Json.num (-5),
                         region := "Unknown" } := rfl

/-- C9 counterexample: a record with raw area -5 is materialized, and its
Area field is the negative number -5, not a positive number and not the
sentinel. -/
theorem area_negative_passthrough :
    normalizeRecord (Json.obj [("name", Json.obj [("common", Json.str "X")]),
      ("population", Json.num 5), ("area", Json.num (-5))]) =
    NormResult.cleaned { country := "X", capital := Json.str "N/A",
                         population := Json.num 5, area := Json.num (-5),
                         region := "Unknown" } ∧
    (-5 : Rat) < 0 :=
  ⟨negArea_record_eval, by norm_num⟩

/-- C9 amended: when the raw area field is absent or numeric, every
materialized record's Area is either the sentinel "N/A" or a nonzero
number (zero never appears as a numeric Area; negative values pass through
unchanged). -/
theorem cleaned_area_nonzero_or_sentinel (kvs : List (String × Json)) (r : CleanedRecord)
    (h : normalizeRecord (Json.obj kvs) = NormResult.cleaned r)
    (ha : dictGet kvs "area" = none ∨ ∃ q, dictGet kvs "area" = some (Json.num q)) :
    r.area = Json.str "N/A" ∨ ∃ q, q ≠ 0 ∧ r.area = Json.num q := by
  obtain ⟨_, _, _, harea_none, harea_num, _, _⟩ := cleaned_field_rules kvs r h
  cases ha with
  | inl hd => exact Or.inl (harea_none hd)
  | inr hd =>
    obtain ⟨q, hq⟩ := hd
    by_cases hz : q = 0
    · subst hz
      have := harea_num 0 hq
      simp at this
      exact Or.inl this
    · right
      refine ⟨q, hz, ?_⟩
      have := harea_num q hq
      rwa [if_neg hz] at this

/-- Witness for C9 (amended) at the concrete negative-area record. -/
theorem cleaned_area_nonzero_or_sentinel_witness :
    Json.num (-5) = Json.str "N/A" ∨ ∃ q, q ≠ 0 ∧ Json.num (-5) = Json.num q :=
  cleaned_area_nonzero_or_sentinel
    [("name", Json.obj [("common", Json.str "X")]),
     ("population", Json.num 5), ("area", Json.num (-5))]
    { country := "X", capital := Json.str "N/A", population := Json.num 5,
      area := Json.num (-5), region := "Unknown" }
    negArea_record_eval (Or.inr ⟨-5, rfl⟩)

theorem takeWhile_append_all (p : Char → Bool) :
    ∀ (as bs : List Char), (∀ a ∈ as, p a = true) →
      List.takeWhile p (as ++ bs) = as ++ List.takeWhile p bs := by
  intro as
  induction as with
  | nil => intro bs _; simp
  | cons a as ih =>
    intro bs h
    have ha : p a = true := h a (by simp)
    rw [List.cons_append, List.takeWhile_cons_of_pos ha,
      ih bs (fun x hx => h x (by simp [hx]))]
    rfl

theorem basenameL_after_last_slash (xs ys : List Char) (h : ∀ c ∈ ys, c ≠ '/') :
    basenameL (xs ++ '/' :: ys) = ys := by
  unfold basenameL
  have hrev : (xs ++ '/' :: ys).reverse = ys.reverse ++ '/' :: xs.reverse := by
    rw [List.reverse_append, List.reverse_cons, List.append_assoc]
    rfl
  rw [hrev]
  rw [takeWhile_append_all _ ys.reverse ('/' :: xs.reverse)
    (fun c hc => bne_iff_ne.mpr (h c (List.mem_reverse.mp hc)))]
  rw [List.takeWhile_cons_of_neg (by simp)]
  simp

theorem splitextRoot_keep (b e : List Char) (hb : b ≠ [])
    (hbd : ∀ c ∈ b, c ≠ '.') (hed : ∀ c ∈ e, c ≠ '.') :
    splitextRoot (b ++ '.' :: e) = b := by
  unfold splitextRoot
  have hrev : (b ++ '.' :: e).reverse = e.reverse ++ '.' :: b.reverse := by
    rw [List.reverse_append, List.reverse_cons, List.append_assoc]
    rfl
  rw [hrev]
  rw [takeWhile_append_all _ e.reverse ('.' :: b.reverse)
    (fun c hc => bne_iff_ne.mpr (hed c (List.mem_reverse.mp hc)))]
  rw [List.takeWhile_cons_of_neg (by simp)]
  rw [List.append_nil]
  have hblen : 0 < b.length := List.length_pos.mpr hb
  have hcond : ¬ ((e.reverse).length = (b ++ '.' :: e).length) := by
    simp only [List.length_reverse, List.length_append, List.length_cons]
    omega
  rw [if_neg hcond]
  have hdrop : (e.reverse ++ '.' :: b.reverse).drop ((e.reverse).length + 1) = b.reverse := by
    have h1 : e.reverse ++ '.' :: b.reverse = (e.reverse ++ ['.']) ++ b.reverse := by
      simp
    rw [h1, show (e.reverse).length + 1 = (e.reverse ++ ['.']).length by simp,
      List.drop_left]
  rw [hdrop, List.reverse_reverse]
  have hall : ¬ (b.all (fun c => c == '.') = true) := by
    rw [List.all_eq_true]
    intro hcontr
    obtain ⟨c, hc⟩ := List.exists_mem_of_ne_nil b hb
    have hcdot := hcontr c hc
    exact hbd c hc (by simpa using hcdot)
  rw [if_neg hall]

/-- C5: destination-key derivation strips any directory prefix and the
extension from the source key and produces `cleaned/<base>.csv`; in
particular on the two keys named by the spec. -/
theorem derive_key_strips_dir_and_ext :
    derive_key "raw/countries_data.json" = "cleaned/countries_data.csv" ∧
    derive_key "raw/a/b/x.JSON" = "cleaned/x.csv" ∧
    ∀ (d b e : String), b ≠ "" →
      (∀ c ∈ b.data, c ≠ '/' ∧ c ≠ '.') →
      (∀ c ∈ e.data, c ≠ '/' ∧ c ≠ '.') →
      derive_key (d ++ "/" ++ b ++ "." ++ e) = "cleaned/" ++ b ++ ".csv" := by
  refine ⟨rfl, rfl, ?_⟩
  intro d b e hb hbc hec
  unfold derive_key
  have hdata : (d ++ "/" ++ b ++ "." ++ e).data =
      d.data ++ '/' :: (b.data ++ '.' :: e.data) := by
    simp [String.data_append]
  rw [hdata]
  rw [basenameL_after_last_slash d.data (b.data ++ '.' :: e.data) ?hys]
  case hys =>
    intro c hc
    rcases List.mem_append.mp hc with hcb | hce
    · exact (hbc c hcb).1
    · rcases List.mem_cons.mp hce with hdot | hce2
      · rw [hdot]; decide
      · exact (hec c hce2).1
  rw [splitextRoot_keep b.data e.data ?hbne (fun c hc => (hbc c hc).2)
    (fun c hc => (hec c hc).2)]
  case hbne =>
    intro hnil
    apply hb
    cases b with
    | mk l =>
      simp only at hnil
      rw [hnil]

/-- Witness for C5 at a key with a nested directory prefix and a base name
containing a space. -/
theorem derive_key_strips_dir_and_ext_witness :
    derive_key ("raw/a" ++ "/" ++ "data file" ++ "." ++ "json") =
      "cleaned/" ++ "data file" ++ ".csv" :=
  derive_key_strips_dir_and_ext.2.2 "raw/a" "data file" "json"
    (by decide) (by decide) (by decide)

theorem watchLoop_polls_bound (head : Nat → HeadResult) (mw i : Nat) (hi : 0 < i) :
    ∀ fuel e, i * (watchLoop head mw i e fuel).2 < (mw - e) + i := by
  intro fuel
  induction fuel with
  | zero =>
    intro e
    simp only [watchLoop]
    omega
  | succ f ih =>
    intro e
    by_cases he : e < mw
    · cases hh : head e with
      | found =>
        simp only [watchLoop, he, if_true, hh]
        omega
      | err =>
        simp only [watchLoop, he, if_true, hh]
        omega
      | notFound =>
        simp only [watchLoop, he, if_true, hh]
        have ihe := ih (e + i)
        rw [Nat.mul_succ]
        rcases Nat.eq_zero_or_pos (watchLoop head mw i (e + i) f).2 with h0 | hpos
        · rw [h0]
          omega
        · have hge : i ≤ i * (watchLoop head mw i (e + i) f).2 :=
            Nat.le_mul_of_pos_right i hpos
          omega
    · simp only [watchLoop, he, if_false]
      omega

theorem watchLoop_completed_prev (head : Nat → HeadResult) (mw i : Nat) :
    ∀ fuel e e2 p, watchLoop head mw i e fuel = (WatchResult.completed e2, p) →
      head e2 = HeadResult.found ∧
      (e2 = e ∨ (i ≤ e2 ∧ head (e2 - i) = HeadResult.notFound)) := by
  intro fuel
  induction fuel with
  | zero =>
    intro e e2 p h
    simp only [watchLoop] at h
    injection h with h1 h2
    exact WatchResult.noConfusion h1
  | succ f ih =>
    intro e e2 p h
    by_cases he : e < mw
    · simp only [watchLoop, he, if_true] at h
      cases hh : head e with
      | found =>
        rw [hh] at h
        injection h with h1 h2
        injection h1 with h3
        subst h3
        exact ⟨hh, Or.inl rfl⟩
      | err =>
        rw [hh] at h
        injection h with h1 h2
        exact WatchResult.noConfusion h1
      | notFound =>
        rw [hh] at h
        injection h with h1 h2
        have hp : watchLoop head mw i (e + i) f =
            (WatchResult.completed e2, (watchLoop head mw i (e + i) f).2) := by
          rw [← h1]
        obtain ⟨hfound, hca⟩ := ih (e + i) e2 _ hp
        refine ⟨hfound, ?_⟩
        rcases hca with heq | hprev
        · right
          refine ⟨by omega, ?_⟩
          rw [heq, Nat.add_sub_cancel]
          exact hh
        · right; exact hprev
    · simp only [watchLoop, he, if_false] at h
      injection h with h1 h2
      exact WatchResult.noConfusion h1

theorem watchLoop_fatal_head (head : Nat → HeadResult) (mw i : Nat) :
    ∀ fuel e e2 p, watchLoop head mw i e fuel = (WatchResult.fatal e2, p) →
      head e2 = HeadResult.err := by
  intro fuel
  induction fuel with
  | zero =>
    intro e e2 p h
    simp only [watchLoop] at h
    injection h with h1 h2
    exact WatchResult.noConfusion h1
  | succ f ih =>
    intro e e2 p h
    by_cases he : e < mw
    · simp only [watchLoop, he, if_true] at h
      cases hh : head e with
      | found =>
        rw [hh] at h
        injection h with h1 h2
        exact WatchResult.noConfusion h1
      | err =>
        rw [hh] at h
        injection h with h1 h2
        injection h1 with h3
        subst h3
        exact hh
      | notFound =>
        rw [hh] at h
        injection h with h1 h2
        exact ih (e + i) e2 _ (by rw [← h1])
    · simp only [watchLoop, he, if_false] at h
      injection h with h1 h2
      exact WatchResult.noConfusion h1

theorem watchLoop_polls_pos (head : Nat → HeadResult) (mw i e fuel : Nat)
    (he : e < mw) (hf : 0 < fuel) :
    1 ≤ (watchLoop head mw i e fuel).2 := by
  cases fuel with
  | zero => omega
  | succ f =>
    cases hh : head e <;> simp [watchLoop, he, hh]

/-- C6: the watcher performs at most `ceil(maxWait / interval)` polls — in
particular exactly 30 for `maxWait = 300, interval = 10` when the object
never appears, timing out once the accumulated elapsed time reaches
`maxWait`; and whenever it returns Completed at elapsed time `e`, the head
at `e` succeeded while the previous poll (one interval earlier, when one
exists) still reported not-found, so completion is within one poll interval
of the object becoming available. -/
theorem watcher_bounded_polls :
    await_completion (fun _ => HeadResult.notFound) 300 10 =
      (WatchResult.timedOut 300 300, 30) ∧
    (∀ head mw i, 0 < i →
      (await_completion head mw i).2 ≤ (mw + i - 1) / i) ∧
    (∀ head mw i e p, await_completion head mw i = (WatchResult.completed e, p) →
      head e = HeadResult.found ∧
      (e = 0 ∨ (i ≤ e ∧ head (e - i) = HeadResult.notFound))) := by
  refine ⟨rfl, ?_, ?_⟩
  · intro head mw i hi
    have hb := watchLoop_polls_bound head mw i hi (mw + 1) 0
    rw [Nat.le_div_iff_mul_le hi]
    show (watchLoop head mw i 0 (mw + 1)).2 * i ≤ mw + i - 1
    rw [Nat.mul_comm]
    omega
  · intro head mw i e p h
    obtain ⟨hf, hca⟩ := watchLoop_completed_prev head mw i (mw + 1) 0 e p h
    exact ⟨hf, hca⟩

/-- Witness for C6: the poll-count bound instantiated at the never-appearing
object with the source constants, and the previous-poll property at a head
that becomes available at time 25 (completion at elapsed 30). -/
theorem watcher_bounded_polls_witness :
    (await_completion (fun _ => HeadResult.notFound) 300 10).2 ≤ (300 + 10 - 1) / 10 ∧
    ((fun t => if 25 ≤ t then HeadResult.found else HeadResult.notFound) 30 =
        HeadResult.found ∧
      (30 = 0 ∨ (10 ≤ 30 ∧
        (fun t => if 25 ≤ t then HeadResult.found else HeadResult.notFound) (30 - 10) =
          HeadResult.notFound))) :=
  ⟨watcher_bounded_polls.2.1 (fun _ => HeadResult.notFound) 300 10 (by decide),
   watcher_bounded_polls.2.2
     (fun t => if 25 ≤ t then HeadResult.found else HeadResult.notFound)
     300 10 30 4 (by decide)⟩

/-- C7: a fatal result only arises from a poll whose head reported an error
other than not-found; an error on the first poll propagates immediately
(exactly one poll, no further waiting); a not-found on the first poll keeps
the watcher polling (at least a second poll happens). -/
theorem watcher_error_propagation :
    (∀ head mw i e p, await_completion head mw i = (WatchResult.fatal e, p) →
      head e = HeadResult.err) ∧
    (∀ head mw i, 0 < mw → head 0 = HeadResult.err →
      await_completion head mw i = (WatchResult.fatal 0, 1)) ∧
    (∀ head mw i, head 0 = HeadResult.notFound → i < mw →
      2 ≤ (await_completion head mw i).2) := by
  refine ⟨?_, ?_, ?_⟩
  · intro head mw i e p h
    exact watchLoop_fatal_head head mw i (mw + 1) 0 e p h
  · intro head mw i hmw h0
    show watchLoop head mw i 0 (mw + 1) = _
    simp [watchLoop, hmw, h0]
  · intro head mw i h0 him
    have hmw : 0 < mw := by omega
    have h2 := watchLoop_polls_pos head mw i i mw him hmw
    show 2 ≤ (watchLoop head mw i 0 (mw + 1)).2
    simp only [watchLoop, hmw, if_true, h0]
    simp only [Nat.zero_add]
    omega

/-- Witness for C7: an immediate storage error at the first poll with the
source constants. -/
theorem watcher_error_propagation_witness :
    await_completion (fun _ => HeadResult.err) 300 10 = (WatchResult.fatal 0, 1) :=
  watcher_error_propagation.2.1 (fun _ => HeadResult.err) 300 10 (by decide) rfl

theorem string_append_empty (s : String) : s ++ "" = s := by
  cases s with
  | mk l =>
    show String.mk (l ++ []) = String.mk l
    rw [List.append_nil]

theorem cleanBatch_all_str (xs : List Json) (h : ∀ x ∈ xs, ∃ s, x = Json.str s) :
    cleanBatch xs = ([], xs.length) := by
  rw [cleanBatch_eq]
  have hnone : ∀ x ∈ xs, cleanedOf x = none := by
    intro x hx
    obtain ⟨s, rfl⟩ := h x hx
    rfl
  have h1 : xs.filterMap cleanedOf = [] := List.filterMap_eq_nil_iff.mpr hnone
  have h2 : xs.countP (fun r => (cleanedOf r).isNone) = xs.length :=
    List.countP_eq_length.mpr (by intro a ha; rw [hnone a ha]; rfl)
  rw [h1, h2]

/-- C3 counterexample: a payload that decodes as a JSON object (not an
array) does not abort the stage — the handler returns 200 and a header-only
CSV is written to the destination. -/
theorem nonarray_payload_written :
    (lambda_handler goodEnv goodEvent
      (fun _ _ => Except.ok (Json.obj [("a", Json.num 1)])) (Except.ok ())).1.statusCode =
      200 ∧
    (lambda_handler goodEnv goodEvent
      (fun _ _ => Except.ok (Json.obj [("a", Json.num 1)])) (Except.ok ())).2 =
      [("dst-bucket", "cleaned/countries_data.csv",
        "Country,Capital,Population,Area,Region\x0d\n")] :=
  ⟨rfl, rfl⟩

/-- C3 amended: a payload that decodes as JSON but is not an array aborts
with a 500 error response and no destination write only when it is a
number, boolean or null (the `len` call raises `TypeError`); a JSON object
or string payload is instead iterated element-wise (keys, respectively
characters), every element is skipped, and a header-only CSV is written to
the destination with a 200 success response. -/
theorem nonarray_payload_behaviour :
    (∀ q put, lambda_handler goodEnv goodEvent
        (fun _ _ => Except.ok (Json.num q)) put =
      ({ statusCode := 500, body := Json.str "Error: TypeError" }, [])) ∧
    (∀ b put, lambda_handler goodEnv goodEvent
        (fun _ _ => Except.ok (Json.bool b)) put =
      ({ statusCode := 500, body := Json.str "Error: TypeError" }, [])) ∧
    (∀ put, lambda_handler goodEnv goodEvent
        (fun _ _ => Except.ok Json.null) put =
      ({ statusCode := 500, body := Json.str "Error: TypeError" }, [])) ∧
    (∀ kvs, lambda_handler goodEnv goodEvent
        (fun _ _ => Except.ok (Json.obj kvs)) (Except.ok ()) =
      ({ statusCode := 200,
         body := successBody "src-bucket" "raw/countries_data.json" "dst-bucket"
           "cleaned/countries_data.csv" 0 kvs.length },
       [("dst-bucket", "cleaned/countries_data.csv",
         "Country,Capital,Population,Area,Region\x0d\n")])) ∧
    (∀ s, lambda_handler goodEnv goodEvent
        (fun _ _ => Except.ok (Json.str s)) (Except.ok ()) =
      ({ statusCode := 200,
         body := successBody "src-bucket" "raw/countries_data.json" "dst-bucket"
           "cleaned/countries_data.csv" 0 s.length },
       [("dst-bucket", "cleaned/countries_data.csv",
         "Country,Capital,Population,Area,Region\x0d\n")])) := by
  refine ⟨?_, ?_, ?_, ?_, ?_⟩
  · intro q put; rfl
  · intro b put; rfl
  · intro put; rfl
  · intro kvs
    have hres : cleanBatch (kvs.map (fun kv => Json.str kv.1)) = ([], kvs.length) := by
      rw [cleanBatch_all_str]
      · rw [List.length_map]
      · intro x hx
        obtain ⟨kv, _, rfl⟩ := List.mem_map.mp hx
        exact ⟨kv.1, rfl⟩
    have h0 : lambda_handler goodEnv goodEvent
        (fun _ _ => Except.ok (Json.obj kvs)) (Except.ok ()) =
      ({ statusCode := 200,
         body := successBody "src-bucket" "raw/countries_data.json" "dst-bucket"
           "cleaned/countries_data.csv"
           (cleanBatch (kvs.map (fun kv => Json.str kv.1))).1.length
           (cleanBatch (kvs.map (fun kv => Json.str kv.1))).2 },
       [("dst-bucket", "cleaned/countries_data.csv",
         csvRender (cleanBatch (kvs.map (fun kv => Json.str kv.1))).1)]) := rfl
    rw [h0, hres]
    simp [csvRender, String.join, string_append_empty]
  · intro s
    have hres : cleanBatch (s.data.map (fun c => Json.str (String.mk [c]))) =
        ([], s.data.length) := by
      rw [cleanBatch_all_str]
      · rw [List.length_map]
      · intro x hx
        obtain ⟨c, _, rfl⟩ := List.mem_map.mp hx
        exact ⟨String.mk [c], rfl⟩
    have h0 : lambda_handler goodEnv goodEvent
        (fun _ _ => Except.ok (Json.str s)) (Except.ok ()) =
      ({ statusCode := 200,
         body := successBody "src-bucket" "raw/countries_data.json" "dst-bucket"
           "cleaned/countries_data.csv"
           (cleanBatch (s.data.map (fun c => Json.str (String.mk [c])))).1.length
           (cleanBatch (s.data.map (fun c => Json.str (String.mk [c])))).2 },
       [("dst-bucket", "cleaned/countries_data.csv",
         csvRender (cleanBatch (s.data.map (fun c => Json.str (String.mk [c])))).1)]) := rfl
    have hlen : s.data.length = s.length := rfl
    rw [h0, hres, hlen]
    simp [csvRender, String.join, string_append_empty]

theorem handlerCore_ok_status (env : String → Option String) (event : Json)
    (getObject : String → String → Except PyErr Json) (putOutcome : Except PyErr Unit)
    (r : HandlerResponse × List (String × String × String))
    (h : handlerCore env event getObject putOutcome = Except.ok r) :
    r.1.statusCode = 200 := by
  unfold handlerCore at h
  dsimp only [] at h
  repeat' split at h
  all_goals
    first
      | exact Except.noConfusion h
      | (injection h with h1; rw [← h1])

/-- C10: the handler is total at its public interface — for every
environment, event, source read outcome and destination write outcome it
returns a structured response whose status code is 200 or 500; it never
propagates an exception. -/
theorem handler_total_structured (env : String → Option String) (event : Json)
    (getObject : String → String → Except PyErr Json) (putOutcome : Except PyErr Unit) :
    (lambda_handler env event getObject putOutcome).1.statusCode = 200 ∨
    (lambda_handler env event getObject putOutcome).1.statusCode = 500 := by
  cases h : handlerCore env event getObject putOutcome with
  | ok r =>
    left
    show (match handlerCore env event getObject putOutcome with
      | Except.ok r => r
      | Except.error e =>
        ({ statusCode := 500, body := Json.str ("Error: " ++ errMsg e) }, [])).1.statusCode = 200
    rw [h]
    exact handlerCore_ok_status env event getObject putOutcome r h
  | error e =>
    right
    show (match handlerCore env event getObject putOutcome with
      | Except.ok r => r
      | Except.error e =>
        ({ statusCode := 500, body := Json.str ("Error: " ++ errMsg e) }, [])).1.statusCode = 500
    rw [h]
